import Mathlib

/-
  Verification of the MARC21 binary decoder (marcli).

  Shallow embedding of the Go sources src/marcfile.go and src/field.go.
  The byte stream of an open file is modelled as a list of bytes (Nat,
  each < 256 in practice) together with an explicit read cursor, so that
  `Read`, `bufio.ReadString` and `Seek` become pure state transformers.
  Go strings are modelled as byte lists as well, since the code treats
  them as raw bytes throughout.

  Go's two failure channels are kept distinct: an `error` return value is
  an `err` outcome, while a `panic` (process abort) is a `panicked`
  outcome.  Functions whose Go signature has no error return but that can
  panic use `VOutcome`; functions returning `(T, error)` use `MOutcome`.
-/

set_option autoImplicit false

namespace Marcli

/-- The bytes of an ASCII string, used for string literals of the Go code. -/
def ascii (s : String) : List Nat :=
  s.data.map (fun c => c.toNat)

/-- MARC field separator byte (0x1E). -/
def rs : Nat := 30

/-- Modelled from the spec: the constant `st` is defined in this repository
outside src/.  Per the spec glossary it is the subfield delimiter 0x1F. -/
def st : Nat := 31

/-- Errors returned (as Go `error` values) by the decoding functions.
`eof` models `io.EOF`; the malformed cases model the errors of the
spec-modelled `NewLeader` and `NewDirEntry`.  `fuelExhausted` is an
artifact of the fuel-bounded model of the unbounded `ReadAll` loop. -/
inductive MarcError where
  | eof : MarcError
  | malformedLeader : MarcError
  | malformedDirectory : MarcError
  | fuelExhausted : MarcError
deriving DecidableEq

/-- The text `err.Error()` of a Go error value, as used by `panic(err)`. -/
def errText : MarcError → String
  | MarcError.eof => ("EOF")
  | MarcError.malformedLeader => ("malformed leader")
  | MarcError.malformedDirectory => ("malformed directory")
  | MarcError.fuelExhausted => ("fuel exhausted")

/-- Outcome of a Go function returning `(T, error)` that may also panic. -/
inductive MOutcome (α : Type) where
  | ok : α → MOutcome α
  | err : MarcError → MOutcome α
  | panicked : String → MOutcome α
deriving DecidableEq

/-- Outcome of a Go function with no error return that may panic
(such as `readValues`). -/
inductive VOutcome (α : Type) where
  | ok : α → VOutcome α
  | panicked : String → VOutcome α
deriving DecidableEq

/-- Modelled from the spec: leader.go is not under src/.  §4.1: the
24-byte leader carries the total record length and the base address of
data as fixed-width decimal substrings (positions 0-4 and 12-16), and the
raw bytes are preserved for completeness. -/
structure Leader where
  Raw : List Nat
  Length : Nat
  BaseAddress : Nat
deriving DecidableEq

/-- One directory slot (§3): 3-byte tag, field byte length, start offset. -/
structure DirEntry where
  Tag : List Nat
  Length : Nat
  StartOffset : Nat
deriving DecidableEq

/-- A (code, value) pair inside a decoded `Value`, as used by
`SubValueFor` in marcfile.go (`sub.SubField`, `sub.Value`). -/
structure SubFieldValue where
  SubField : List Nat
  Value : List Nat
deriving DecidableEq

/-- The decoded value of one field as stored in `Record.Values`.  The
struct declaration (value.go) is not under src/; its fields are
reconstructed from its uses in marcfile.go (`value.Tag`,
`value.SubFieldValues`) and the spec's field model (§3). -/
structure Value where
  Tag : List Nat
  RawValue : List Nat
  SubFieldValues : List SubFieldValue
deriving DecidableEq

/-- A MARC record: leader + directory + decoded values + sequence number
(marcfile.go, type Record). -/
structure Record where
  Leader : Leader
  Directory : List DirEntry
  Values : List Value
  Pos : Nat
deriving DecidableEq

/-- The open file of a decode pass (marcfile.go, type MarcFile): the
underlying byte stream, the read cursor of the file handle, and the
count of records read so far. -/
structure MarcFile where
  data : List Nat
  pos : Nat
  records : Nat
deriving DecidableEq

/-- `file.f.Read(buffer)` with a buffer of size `n` on a regular file:
returns the next `min n remaining` bytes and advances the cursor by the
number of bytes actually read. -/
def readBytes (f : MarcFile) (n : Nat) : List Nat × MarcFile :=
  let bs := (f.data.drop f.pos).take n
  (bs, { f with pos := f.pos + bs.length })

/-- The numeric value of an ASCII digit byte, if it is one. -/
def digitVal (b : Nat) : Option Nat :=
  if 48 ≤ b ∧ b ≤ 57 then some (b - 48) else none

/-- Base-10 parse of a digit string, `none` if any byte is not a digit. -/
def parseDigits (l : List Nat) : Option Nat :=
  l.foldl
    (fun acc b =>
      match acc, digitVal b with
      | some n, some d => some (n * 10 + d)
      | _, _ => none)
    (some 0)

/-- Modelled from the spec: leader.go (`NewLeader`) is not under src/.
§4.1: given the 24 leader bytes, parse the record length (positions 0-4)
and the base address of data (positions 12-16) as fixed-width decimal
substrings; fail with `MalformedLeader` if fewer than 24 bytes are given
or the numeric subfields do not parse. -/
def NewLeader (s : List Nat) : MOutcome Leader :=
  if s.length < 24 then MOutcome.err MarcError.malformedLeader
  else
    match parseDigits (s.take 5), parseDigits ((s.drop 12).take 5) with
    | some len, some base =>
        MOutcome.ok { Raw := s, Length := len, BaseAddress := base }
    | _, _ => MOutcome.err MarcError.malformedLeader

/-- Modelled from the spec: the file defining `NewDirEntry` is not under
src/.  §4.2: a directory entry is exactly 12 bytes, 3 bytes tag, 4 bytes
length and 5 bytes starting offset, both numeric parts validated as
base-10 digit strings; fail with `MalformedDirectory` otherwise. -/
def NewDirEntry (entry : List Nat) : MOutcome DirEntry :=
  if entry.length = 12 then
    match parseDigits ((entry.drop 3).take 4), parseDigits ((entry.drop 7).take 5) with
    | some len, some off =>
        MOutcome.ok { Tag := entry.take 3, Length := len, StartOffset := off }
    | _, _ => MOutcome.err MarcError.malformedDirectory
  else MOutcome.err MarcError.malformedDirectory

/-- Index of the first occurrence of byte `b` in `l` (the search done by
`bufio.Reader.ReadString`). -/
def findByte (l : List Nat) (b : Nat) : Option Nat :=
  match l with
  | [] => none
  | x :: xs => if x = b then some 0 else (findByte xs b).map (· + 1)

/-- `readLeader` (marcfile.go:79-86): read into a 24-byte buffer; a
`Read` error (io.EOF, reported only when no byte could be read) is
returned as-is; otherwise the full buffer — zero-padded if the read was
short, since the returned count is ignored — is handed to `NewLeader`. -/
def readLeader (f : MarcFile) : MOutcome Leader × MarcFile :=
  let r := readBytes f 24
  if r.1.length = 0 then (MOutcome.err MarcError.eof, r.2)
  else (NewLeader (r.1 ++ List.replicate (24 - r.1.length) 0), r.2)

/-- The `for i := 0; i < count; i++` loop of `readDirectory`
(marcfile.go:100-108): parse `count` consecutive 12-byte windows of `ss`
starting at byte `start`, stopping at the first `NewDirEntry` error. -/
def parseEntriesFrom (ss : List Nat) : Nat → Nat → MOutcome (List DirEntry)
  | _, 0 => MOutcome.ok []
  | start, k + 1 =>
    match NewDirEntry ((ss.drop start).take 12) with
    | MOutcome.ok e =>
      match parseEntriesFrom ss (start + 12) k with
      | MOutcome.ok rest => MOutcome.ok (e :: rest)
      | MOutcome.err er => MOutcome.err er
      | MOutcome.panicked m => MOutcome.panicked m
    | MOutcome.err er => MOutcome.err er
    | MOutcome.panicked m => MOutcome.panicked m

/-- `readDirectory` (marcfile.go:88-113).  The `bufio.NewReader` may
consume `bufAdv` bytes of the underlying file ahead of need; `ReadString`
returns everything up to and including the first 0x1E, or everything to
end of stream together with `io.EOF` if the terminator is absent.  On
success the explicit `Seek(offset+len(ss), 0)` repositions the cursor to
the first byte after the terminator, overriding the buffered over-read;
the error returns happen before the `Seek`. -/
def readDirectory (f : MarcFile) (bufAdv : Nat) : MOutcome (List DirEntry) × MarcFile :=
  let offset := f.pos
  let fBuf : MarcFile := { f with pos := min (f.pos + bufAdv) f.data.length }
  match findByte (f.data.drop f.pos) rs with
  | none => (MOutcome.err MarcError.eof, { f with pos := f.data.length })
  | some i =>
    let ss := (f.data.drop f.pos).take (i + 1)
    let count := (ss.length - 1) / 12
    match parseEntriesFrom ss 0 count with
    | MOutcome.ok dir => (MOutcome.ok dir, { f with pos := offset + ss.length })
    | MOutcome.err e => (MOutcome.err e, fBuf)
    | MOutcome.panicked m => (MOutcome.panicked m, fBuf)

/-- The number of bytes `bufio.NewReader` (default 4096-byte buffer) pulls
from the underlying file on its first fill. -/
def bufioFill (f : MarcFile) : Nat :=
  min 4096 (f.data.length - f.pos)

/-- Splits a byte list around every occurrence of the byte `b`, exactly
like Go's `bytes.Split` with a one-byte separator (the empty list splits
to one empty segment). -/
def splitOnByte (l : List Nat) (b : Nat) : List (List Nat) :=
  match l with
  | [] => [[]]
  | x :: xs =>
    if x = b then [] :: splitOnByte xs b
    else
      match splitOnByte xs b with
      | [] => [[x]]
      | s :: rest => (x :: s) :: rest

/-- Modelled from the spec: value.go (`NewValue`) is not under src/.
§4.3: a control field keeps the separator-stripped slice as its raw
value; a data field's subfields are the non-empty 0x1F-separated
segments after the two indicator bytes and the first delimiter, each
split as (first byte = code, rest = value). -/
def NewValue (tag : List Nat) (value : List Nat) : Value :=
  if (ascii ("00")).isPrefixOf tag then
    { Tag := tag, RawValue := value, SubFieldValues := [] }
  else
    { Tag := tag, RawValue := [],
      SubFieldValues :=
        (splitOnByte (value.drop 3) st).filterMap
          (fun s =>
            match s with
            | [] => none
            | c :: rest => some { SubField := [c], Value := rest }) }

/-- One iteration of the `readValues` loop (marcfile.go:122-130): read
`entry.Length` bytes; a read error other than io.EOF cannot occur on a
pure byte source; `buffer[:n-1]` drops the final byte read and panics
with a runtime slice-bounds error when `n = 0`. -/
def readOneValue (f : MarcFile) (entry : DirEntry) : VOutcome Value × MarcFile :=
  let r := readBytes f entry.Length
  if r.1.length = 0 then
    (VOutcome.panicked ("runtime error: slice bounds out of range"), r.2)
  else
    (VOutcome.ok (NewValue entry.Tag (r.1.take (r.1.length - 1))), r.2)

/-- The whole field loop of `readValues` (marcfile.go:121-130),
accumulating one `Value` per directory entry in order. -/
def readFields : MarcFile → List DirEntry → VOutcome (List Value) × MarcFile
  | f, [] => (VOutcome.ok [], f)
  | f, e :: rest =>
    match readOneValue f e with
    | (VOutcome.ok v, f1) =>
      match readFields f1 rest with
      | (VOutcome.ok vs, f2) => (VOutcome.ok (v :: vs), f2)
      | (VOutcome.panicked m, f2) => (VOutcome.panicked m, f2)
    | (VOutcome.panicked m, f1) => (VOutcome.panicked m, f1)

/-- `readValues` (marcfile.go:120-142): decode every directory entry,
then read one more byte; if no byte could be read (`n != 1`) panic with
"End of record byte not found".  The value of that byte is never
inspected. -/
def readValues (f : MarcFile) (dir : List DirEntry) : VOutcome (List Value) × MarcFile :=
  match readFields f dir with
  | (VOutcome.ok vs, f1) =>
    let r := readBytes f1 1
    if r.1.length ≠ 1 then (VOutcome.panicked ("End of record byte not found"), r.2)
    else (VOutcome.ok vs, r.2)
  | (VOutcome.panicked m, f1) => (VOutcome.panicked m, f1)

/-- `readRecord` (marcfile.go:52-73).  A leader error is returned to the
caller; a directory error is `panic(err)`; `readValues` panics propagate.
On success the fully assembled record is passed to
`processor.Process(file, record, file.records)` — the third component
lists those calls — while the caller receives a record holding only the
leader and the directory. -/
def readRecord (f : MarcFile) : MOutcome Record × MarcFile × List (Record × Nat) :=
  match readLeader f with
  | (MOutcome.err e, f1) => (MOutcome.err e, f1, [])
  | (MOutcome.panicked m, f1) => (MOutcome.panicked m, f1, [])
  | (MOutcome.ok leader, f1) =>
    let f2 : MarcFile := { f1 with records := f1.records + 1 }
    match readDirectory f2 (bufioFill f2) with
    | (MOutcome.err e, f3) => (MOutcome.panicked (errText e), f3, [])
    | (MOutcome.panicked m, f3) => (MOutcome.panicked m, f3, [])
    | (MOutcome.ok directory, f3) =>
      match readValues f3 directory with
      | (VOutcome.panicked m, f4) => (MOutcome.panicked m, f4, [])
      | (VOutcome.ok values, f4) =>
        let record : Record :=
          { Leader := leader, Directory := directory, Values := values, Pos := f4.records }
        (MOutcome.ok { Leader := leader, Directory := directory, Values := [], Pos := 0 },
          f4, [(record, f4.records)])

/-- The `for` loop of `ReadAll` (marcfile.go:36-50), bounded by fuel
(each successful record consumes at least one byte, so any fuel above the
stream length is enough): stop cleanly on `io.EOF`, return any other
error, propagate panics, and concatenate the processor calls. -/
def ReadAllLoop : Nat → MarcFile → MOutcome Unit × MarcFile × List (Record × Nat)
  | 0, f => (MOutcome.err MarcError.fuelExhausted, f, [])
  | fuel + 1, f =>
    match readRecord f with
    | (MOutcome.ok _, f1, pr) =>
      match ReadAllLoop fuel f1 with
      | (o, f2, pr2) => (o, f2, pr ++ pr2)
    | (MOutcome.err e, f1, pr) =>
      if e = MarcError.eof then (MOutcome.ok (), f1, pr) else (MOutcome.err e, f1, pr)
    | (MOutcome.panicked m, f1, pr) => (MOutcome.panicked m, f1, pr)

/-- `ReadAll` (marcfile.go:36-50); the `Header`/`Footer` printing of the
processor has no bearing on the decoded data and is not modelled. -/
def ReadAll (fuel : Nat) (f : MarcFile) : MOutcome Unit × MarcFile × List (Record × Nat) :=
  ReadAllLoop fuel f

/-- A (code, value) pair of a data field (field.go, type SubField). -/
structure SubField where
  Code : List Nat
  Value : List Nat
deriving DecidableEq

/-- A MARC field (field.go, type Field). -/
structure Field where
  Tag : List Nat
  Value : List Nat
  Indicator1 : List Nat
  Indicator2 : List Nat
  SubFields : List SubField
deriving DecidableEq

/-- `IsControlField` (field.go:46-48): tag starts with "00". -/
def Field.IsControlField (f : Field) : Bool :=
  (ascii ("00")).isPrefixOf f.Tag

/-- The `for _, sf := range bytes.Split(...)` loop of `MakeField`
(field.go:83-89): append a (first byte, rest) subfield for every
non-empty segment; the first empty segment stops the loop with the
"Extraneous field terminator" error, keeping the subfields appended so
far. -/
def collectSubFields : List (List Nat) → List SubField × Option String
  | [] => ([], none)
  | [] :: _ => ([], some ("Extraneous field terminator"))
  | (c :: rest) :: more =>
    let r := collectSubFields more
    ({ Code := [c], Value := rest } :: r.1, r.2)

/-- `MakeField` (field.go:66-91), returned as the Go pair
`(Field, error)`. -/
def MakeField (tag : List Nat) (data : List Nat) : Field × Option String :=
  let f : Field :=
    { Tag := tag, Value := [], Indicator1 := [], Indicator2 := [], SubFields := [] }
  if (ascii ("00")).isPrefixOf tag then
    ({ f with Value := data }, none)
  else if data.length > 2 then
    let f1 : Field := { f with Indicator1 := data.take 1, Indicator2 := (data.drop 1).take 1 }
    let r := collectSubFields (splitOnByte (data.drop 3) st)
    ({ f1 with SubFields := r.1 }, r.2)
  else
    (f, some ("Invalid Indicators detected"))

/-- The loop of `ValueFor` (marcfile.go:154-161): first value whose tag
matches, with a found flag. -/
def valueForLoop (tag : List Nat) : List Value → Bool × Value
  | [] => (false, { Tag := [], RawValue := [], SubFieldValues := [] })
  | v :: rest => if v.Tag == tag then (true, v) else valueForLoop tag rest

/-- `ValueFor` (marcfile.go:154-161). -/
def ValueFor (r : Record) (tag : List Nat) : Bool × Value :=
  valueForLoop tag r.Values

/-- The inner loop of `SubValueFor` (marcfile.go:167-172): the `break`
after the first matching subfield makes it a first-match search. -/
def subValueLoop (sub : List Nat) : List SubFieldValue → List Nat
  | [] => []
  | s :: rest => if s.SubField == sub then s.Value else subValueLoop sub rest

/-- `SubValueFor` (marcfile.go:163-175). -/
def SubValueFor (r : Record) (tag sub : List Nat) : List Nat :=
  let fv := ValueFor r tag
  if fv.1 then subValueLoop sub fv.2.SubFieldValues else []

/-! ### A concrete test vector: one complete 45-byte record -/

/-- A complete single-record stream: 24-byte leader (record length 45,
base address 37), one directory entry (tag "001", field length 7),
directory terminator, control field bytes "123456" with field separator,
and the record terminator 0x1D. -/
def sampleStream : List Nat :=
  ascii ("000450000000000370000000") ++ ascii ("001000700000") ++ [30] ++
    ascii ("123456") ++ [30, 29]

/-- The leader decoded from `sampleStream`. -/
def sampleLeader : Leader :=
  { Raw := ascii ("000450000000000370000000"), Length := 45, BaseAddress := 37 }

/-- The single directory entry of `sampleStream`. -/
def sampleEntry : DirEntry :=
  { Tag := ascii ("001"), Length := 7, StartOffset := 0 }

/-- The fully assembled record of `sampleStream`, as handed to the
processor callback. -/
def sampleFull : Record :=
  { Leader := sampleLeader, Directory := [sampleEntry],
    Values := [{ Tag := ascii ("001"), RawValue := ascii ("123456"), SubFieldValues := [] }],
    Pos := 1 }

/-- The record `readRecord` returns to its caller for `sampleStream`. -/
def sampleReturned : Record :=
  { Leader := sampleLeader, Directory := [sampleEntry], Values := [], Pos := 0 }

/-! ### Helper lemmas -/

theorem findByte_lt_length {l : List Nat} {b i : Nat} (h : findByte l b = some i) :
    i < l.length := by
  induction l generalizing i with
  | nil => simp [findByte] at h
  | cons x xs ih =>
    rw [findByte] at h
    by_cases hx : x = b
    · simp [hx] at h
      simp only [List.length_cons]
      omega
    · simp only [hx, if_false, Option.map_eq_some'] at h
      obtain ⟨j, hj, hji⟩ := h
      have := ih hj
      simp only [List.length_cons]
      omega

theorem parseEntriesFrom_length (ss : List Nat) (k : Nat) :
    ∀ (start : Nat) (l : List DirEntry),
      parseEntriesFrom ss start k = MOutcome.ok l → l.length = k := by
  induction k with
  | zero =>
    intro start l h
    simp only [parseEntriesFrom, MOutcome.ok.injEq] at h
    simp [← h]
  | succ n ih =>
    intro start l h
    rw [parseEntriesFrom] at h
    rcases hE : NewDirEntry ((ss.drop start).take 12) with e | er | m <;> rw [hE] at h
    · rcases hR : parseEntriesFrom ss (start + 12) n with rest | er2 | m2 <;> rw [hR] at h
      · simp only [MOutcome.ok.injEq] at h
        subst h
        simp [ih _ _ hR]
      · simp at h
      · simp at h
    · simp at h
    · simp at h

/-! ### C5 -/

/-- C5: reading all records from an empty input stream (no bytes left to
read) terminates cleanly, with zero records decoded, no processor call
and no error — end-of-stream before any leader byte is the normal
stream-exhaustion signal, not an error. -/
theorem readAll_empty_stream (fuel : Nat) (d : List Nat) (p : Nat) (h : d.length ≤ p) :
    ReadAll (fuel + 1) { data := d, pos := p, records := 0 } =
      (MOutcome.ok (), { data := d, pos := p, records := 0 }, []) := by
  have hd : d.drop p = [] := List.drop_eq_nil_of_le h
  simp [ReadAll, ReadAllLoop, readRecord, readLeader, readBytes, hd]

/-- C5 witness: the literally empty stream. -/
theorem readAll_empty_stream_witness :
    ReadAll 1 { data := [], pos := 0, records := 0 } =
      (MOutcome.ok (), { data := [], pos := 0, records := 0 }, []) :=
  readAll_empty_stream 0 [] 0 (by decide)

/-! ### C1 -/

/-- C1 counterexample: a record whose leader parses but whose directory
terminator is missing (a malformed directory) makes `readRecord` abort
via `panic(err)` (marcfile.go:62) — the outcome is a panic, not a
returned error result. -/
theorem readRecord_panics_on_malformed_directory :
    (readRecord { data := ascii ("000240000000000000000000"), pos := 0, records := 0 }).1 =
      MOutcome.panicked ("EOF") := by
  decide

/-- C1 (amended): only a leader failure is returned as a structured error
to the caller of `readRecord`; a directory decode failure makes
`readRecord` panic with the error's text, and any panic of `readValues`
(bad field value, missing record terminator) propagates as a panic,
aborting the process. -/
theorem readRecord_error_propagation (f : MarcFile) :
    (∀ e f1, readLeader f = (MOutcome.err e, f1) →
      readRecord f = (MOutcome.err e, f1, [])) ∧
    (∀ ld f1 e f2, readLeader f = (MOutcome.ok ld, f1) →
      readDirectory { f1 with records := f1.records + 1 }
          (bufioFill { f1 with records := f1.records + 1 }) = (MOutcome.err e, f2) →
      readRecord f = (MOutcome.panicked (errText e), f2, [])) ∧
    (∀ ld f1 dir f2 m f3, readLeader f = (MOutcome.ok ld, f1) →
      readDirectory { f1 with records := f1.records + 1 }
          (bufioFill { f1 with records := f1.records + 1 }) = (MOutcome.ok dir, f2) →
      readValues f2 dir = (VOutcome.panicked m, f3) →
      readRecord f = (MOutcome.panicked m, f3, [])) := by
  refine ⟨?_, ?_, ?_⟩
  · intro e f1 h
    simp [readRecord, h]
  · intro ld f1 e f2 h1 h2
    simp [readRecord, h1, h2]
  · intro ld f1 dir f2 m f3 h1 h2 h3
    simp [readRecord, h1, h2, h3]

/-- C1 witness: on the empty stream the leader read fails with EOF and
`readRecord` returns that error as a result. -/
theorem readRecord_error_propagation_witness :
    readRecord { data := [], pos := 0, records := 0 } =
      (MOutcome.err MarcError.eof, { data := [], pos := 0, records := 0 }, []) :=
  (readRecord_error_propagation { data := [], pos := 0, records := 0 }).1
    MarcError.eof { data := [], pos := 0, records := 0 } (by decide)

/-! ### C2 -/

/-- C2 counterexample: a stream whose directory span (the bytes between
the cursor and the first 0x1E) has length 1 — not a multiple of 12 —
does not fail with a MalformedDirectory error: `readDirectory` succeeds
with an empty directory, because `count := (len(ss)-1)/12` silently
truncates. -/
theorem readDirectory_accepts_short_span :
    findByte (([48, 30] : List Nat).drop 0) rs = some 1 ∧ (1 : Nat) % 12 ≠ 0 ∧
    (readDirectory { data := [48, 30], pos := 0, records := 0 }
        (bufioFill { data := [48, 30], pos := 0, records := 0 })).1 = MOutcome.ok [] := by
  decide

/-- C2 (amended): directory decoding never checks that the span length is
a multiple of 12; whenever the terminator is found at relative index `i`
and decoding succeeds, it returns exactly `i / 12` entries, silently
ignoring the up-to-11 remainder bytes of the span. -/
theorem readDirectory_truncates_span (f : MarcFile) (bufAdv i : Nat)
    (hi : findByte (f.data.drop f.pos) rs = some i)
    (dir : List DirEntry) (f' : MarcFile)
    (h : readDirectory f bufAdv = (MOutcome.ok dir, f')) :
    dir.length = i / 12 := by
  have hlt : i < (f.data.drop f.pos).length := findByte_lt_length hi
  have hlen : ((f.data.drop f.pos).take (i + 1)).length = i + 1 := by
    simp only [List.length_take]
    omega
  simp only [readDirectory, hi] at h
  rcases hp : parseEntriesFrom ((f.data.drop f.pos).take (i + 1)) 0
      ((((f.data.drop f.pos).take (i + 1)).length - 1) / 12) with dir2 | e | m <;>
    rw [hp] at h
  · simp only [Prod.mk.injEq, MOutcome.ok.injEq] at h
    obtain ⟨hdir, _⟩ := h
    subst hdir
    rw [parseEntriesFrom_length _ _ _ _ hp, hlen]
    omega
  · simp at h
  · simp at h

/-- C2 witness: a 13-byte span (one valid 12-byte entry plus one stray
byte) decodes successfully to a single entry. -/
theorem readDirectory_truncates_span_witness :
    ([{ Tag := ascii ("001"), Length := 7, StartOffset := 0 }] : List DirEntry).length =
      13 / 12 :=
  readDirectory_truncates_span
    { data := ascii ("001000700000") ++ [48, 30], pos := 0, records := 0 } 0 13
    (by decide)
    [{ Tag := ascii ("001"), Length := 7, StartOffset := 0 }]
    { data := ascii ("001000700000") ++ [48, 30], pos := 14, records := 0 }
    (by decide)

/-! ### C8 -/

/-- C8: whenever directory decoding succeeds, the read cursor of the
resulting file state sits exactly at the first byte after the
directory's 0x1E terminator — for every amount `bufAdv` of buffered
over-read, since the explicit `Seek` repositions absolutely — and the
stream contents and record counter are untouched. -/
theorem readDirectory_cursor_position (f : MarcFile) (bufAdv : Nat)
    (dir : List DirEntry) (f' : MarcFile)
    (h : readDirectory f bufAdv = (MOutcome.ok dir, f')) :
    f'.data = f.data ∧ f'.records = f.records ∧
    ∃ i, findByte (f.data.drop f.pos) rs = some i ∧ f'.pos = f.pos + (i + 1) := by
  rcases hi : findByte (f.data.drop f.pos) rs with _ | i
  · simp [readDirectory, hi] at h
  · have hlt : i < (f.data.drop f.pos).length := findByte_lt_length hi
    have hlen : ((f.data.drop f.pos).take (i + 1)).length = i + 1 := by
      simp only [List.length_take]
      omega
    simp only [readDirectory, hi] at h
    rcases hp : parseEntriesFrom ((f.data.drop f.pos).take (i + 1)) 0
        ((((f.data.drop f.pos).take (i + 1)).length - 1) / 12) with dir2 | e | m <;>
      rw [hp] at h
    · simp only [Prod.mk.injEq, MOutcome.ok.injEq] at h
      obtain ⟨-, hf⟩ := h
      subst hf
      exact ⟨rfl, rfl, i, rfl, by rw [hlen]⟩
    · simp at h
    · simp at h

/-- C8 witness: a one-entry directory followed by its terminator, decoded
with an over-read of 7 bytes, leaves the cursor at byte 13 = 0 + 12 + 1. -/
theorem readDirectory_cursor_position_witness :
    ({ data := ascii ("001000700000") ++ [30, 88], pos := 13, records := 0 } : MarcFile).data =
        ({ data := ascii ("001000700000") ++ [30, 88], pos := 0, records := 0 } : MarcFile).data ∧
      ({ data := ascii ("001000700000") ++ [30, 88], pos := 13, records := 0 } : MarcFile).records =
        ({ data := ascii ("001000700000") ++ [30, 88], pos := 0, records := 0 } : MarcFile).records ∧
      ∃ i, findByte ((ascii ("001000700000") ++ [30, 88]).drop 0) rs = some i ∧ 13 = 0 + (i + 1) :=
  readDirectory_cursor_position
    { data := ascii ("001000700000") ++ [30, 88], pos := 0, records := 0 } 7
    [{ Tag := ascii ("001"), Length := 7, StartOffset := 0 }]
    { data := ascii ("001000700000") ++ [30, 88], pos := 13, records := 0 }
    (by decide)

/-! ### C3 -/

/-- C3 counterexample: after the last field the byte at the end-of-record
position is 88 ('X'), not 0x1D — yet `readValues` succeeds, because the
code only checks that one byte was read, never its value; so decoding
does not fail on a wrong terminator byte. -/
theorem readValues_ignores_terminator_value :
    ([65, 30, 88] : List Nat).get? 2 = some 88 ∧ (88 : Nat) ≠ 29 ∧
    readValues { data := [65, 30, 88], pos := 0, records := 0 }
        [{ Tag := ascii ("001"), Length := 2, StartOffset := 0 }] =
      (VOutcome.ok [NewValue (ascii ("001")) [65]],
        { data := [65, 30, 88], pos := 3, records := 0 }) := by
  decide

/-- C3 (amended): after decoding the last field the reader reads exactly
one more byte, but verifies only that a byte was read: if the stream is
already exhausted it panics with "End of record byte not found" (a
process abort, not an error result), and if any byte is present —
whatever its value, 0x1D or not — decoding succeeds. -/
theorem readValues_terminator_check (f : MarcFile) (dir : List DirEntry)
    (vs : List Value) (f' : MarcFile)
    (h : readFields f dir = (VOutcome.ok vs, f')) :
    (f'.data.length ≤ f'.pos →
      readValues f dir = (VOutcome.panicked ("End of record byte not found"), f')) ∧
    (f'.pos < f'.data.length →
      readValues f dir = (VOutcome.ok vs, { f' with pos := f'.pos + 1 })) := by
  constructor
  · intro hle
    have hd : f'.data.drop f'.pos = [] := List.drop_eq_nil_of_le hle
    obtain ⟨d, p, r⟩ := f'
    simp [readValues, h, readBytes, hd]
  · intro hlt
    have h1 : ((f'.data.drop f'.pos).take 1).length = 1 := by
      simp only [List.length_take, List.length_drop]
      omega
    simp [readValues, h, readBytes, h1]

/-- C3 witness: with no directory entries and one byte (77, not 0x1D)
left in the stream, `readValues` consumes it and succeeds. -/
theorem readValues_terminator_check_witness :
    readValues { data := [77], pos := 0, records := 0 } [] =
      (VOutcome.ok [], { data := [77], pos := 1, records := 0 }) :=
  (readValues_terminator_check { data := [77], pos := 0, records := 0 } [] []
      { data := [77], pos := 0, records := 0 } (by decide)).2 (by decide)

/-! ### C4 -/

/-- C4 counterexample: a directory entry with declared length 0 yields an
empty field value slice, and `readValues` aborts with a runtime
slice-bounds panic from `buffer[:n-1]` with `n = 0` — not with a
TruncatedField error result. -/
theorem readValues_panics_on_empty_slice :
    (readValues { data := [65, 30], pos := 0, records := 0 }
        [{ Tag := ascii ("245"), Length := 0, StartOffset := 0 }]).1 =
      VOutcome.panicked ("runtime error: slice bounds out of range") := by
  decide

/-- C4 (amended): when the field value slice read for a directory entry
is empty (declared length zero or zero bytes readable), the decoder does
not return a TruncatedField error: it panics with Go's runtime
slice-bounds error; when at least one byte was read, the final byte read
is dropped unconditionally — whether or not it is the 0x1E separator —
before the value is constructed. -/
theorem readOneValue_strips_last_byte (f : MarcFile) (entry : DirEntry)
    (bs : List Nat) (f' : MarcFile) (h : readBytes f entry.Length = (bs, f')) :
    (bs = [] →
      readOneValue f entry =
        (VOutcome.panicked ("runtime error: slice bounds out of range"), f')) ∧
    (bs ≠ [] →
      readOneValue f entry =
        (VOutcome.ok (NewValue entry.Tag (bs.take (bs.length - 1))), f')) := by
  constructor
  · intro hbs
    subst hbs
    simp [readOneValue, h]
  · intro hbs
    have hlen : bs.length ≠ 0 := by
      simpa [List.length_eq_zero] using hbs
    simp [readOneValue, h, hlen]

/-- C4 witness: a 2-byte slice [70, 30] is stripped of its final byte,
leaving value [70]. -/
theorem readOneValue_strips_last_byte_witness :
    readOneValue { data := [70, 30], pos := 0, records := 0 }
        { Tag := ascii ("100"), Length := 2, StartOffset := 0 } =
      (VOutcome.ok (NewValue (ascii ("100")) ([70, 30].take 1)),
        { data := [70, 30], pos := 2, records := 0 }) :=
  (readOneValue_strips_last_byte { data := [70, 30], pos := 0, records := 0 }
      { Tag := ascii ("100"), Length := 2, StartOffset := 0 } [70, 30]
      { data := [70, 30], pos := 2, records := 0 } (by decide)).2 (by decide)

/-! ### C6 -/

theorem collectSubFields_all_nonempty (segs : List (List Nat))
    (h : ∀ s ∈ segs, s ≠ []) :
    collectSubFields segs =
      (segs.map (fun s => { Code := s.take 1, Value := s.drop 1 }), none) := by
  induction segs with
  | nil => rfl
  | cons s rest ih =>
    cases s with
    | nil => exact absurd rfl (h [] (by simp))
    | cons c cs =>
      simp [collectSubFields, ih (fun t ht => h t (by simp [ht]))]

theorem collectSubFields_has_empty (segs : List (List Nat))
    (h : ∃ s ∈ segs, s = []) :
    (collectSubFields segs).2 = some ("Extraneous field terminator") := by
  induction segs with
  | nil => simp at h
  | cons s rest ih =>
    cases s with
    | nil => rfl
    | cons c cs =>
      obtain ⟨t, ht, hte⟩ := h
      rcases List.mem_cons.mp ht with h1 | h2
      · rw [h1] at hte
        exact absurd hte (by simp)
      · simpa [collectSubFields] using ih ⟨t, h2, hte⟩

/-- C6: for a data field (tag outside the "00" control range) whose byte
slice has fewer than 3 bytes, `MakeField` fails with the invalid
indicators error; when the slice has at least 3 bytes with the subfield
delimiter 0x1F at index 2, the first two bytes become the indicators and
the remainder after index 2 is split on 0x1F: with every segment
non-empty, the subfields are the (first byte, rest) pairs in split order,
duplicates retained; with any empty segment, the extraneous terminator
error is returned. -/
theorem MakeField_data_field (tag data : List Nat)
    (hc : (ascii ("00")).isPrefixOf tag = false) :
    (data.length ≤ 2 →
      MakeField tag data =
        ({ Tag := tag, Value := [], Indicator1 := [], Indicator2 := [], SubFields := [] },
          some ("Invalid Indicators detected"))) ∧
    (∀ a b, data.get? 0 = some a → data.get? 1 = some b → data.get? 2 = some st →
      (((∀ s ∈ splitOnByte (data.drop 3) st, s ≠ []) →
        MakeField tag data =
          ({ Tag := tag, Value := [], Indicator1 := [a], Indicator2 := [b],
             SubFields := (splitOnByte (data.drop 3) st).map
               (fun s => { Code := s.take 1, Value := s.drop 1 }) }, none)) ∧
      ((∃ s ∈ splitOnByte (data.drop 3) st, s = []) →
        (MakeField tag data).2 = some ("Extraneous field terminator")))) := by
  constructor
  · intro hle
    have hgt : ¬ data.length > 2 := by omega
    simp [MakeField, hc, hgt]
  · intro a b h0 h1 h2
    rcases data with _ | ⟨x, _ | ⟨y, _ | ⟨z, rest⟩⟩⟩
    · simp at h0
    · simp at h1
    · simp at h2
    · simp only [List.get?_cons_zero, List.get?_cons_succ, Option.some.injEq] at h0 h1 h2
      subst h0 h1 h2
      have hd : (x :: y :: st :: rest).drop 3 = rest := rfl
      constructor
      · intro hne
        rw [hd] at hne
        simp [MakeField, hc, collectSubFields_all_nonempty _ hne]
      · intro hex
        rw [hd] at hex
        simp [MakeField, hc, collectSubFields_has_empty _ hex]

/-- C6 witness: tag "650", indicators '0' and ' ', two subfields sharing
code 97 ('a'), both retained in order. -/
theorem MakeField_data_field_witness :
    MakeField (ascii ("650")) ([48, 32, 31, 97, 66, 31, 97, 67]) =
      ({ Tag := ascii ("650"), Value := [], Indicator1 := [48], Indicator2 := [32],
         SubFields := (splitOnByte (([48, 32, 31, 97, 66, 31, 97, 67] : List Nat).drop 3) st).map
           (fun s => { Code := s.take 1, Value := s.drop 1 }) }, none) :=
  ((MakeField_data_field (ascii ("650")) [48, 32, 31, 97, 66, 31, 97, 67] (by decide)).2
    48 32 (by decide) (by decide) (by decide)).1 (by decide)

/-! ### C7 -/

/-- C7: for a control-range tag (starting with "00"), `MakeField` stores
the separator-stripped slice as the field's `Value` unchanged, sets no
indicators, leaves `SubFields` empty, reports the field as a control
field, and never returns an error. -/
theorem MakeField_control_field (tag data : List Nat)
    (hc : (ascii ("00")).isPrefixOf tag = true) :
    MakeField tag data =
      ({ Tag := tag, Value := data, Indicator1 := [], Indicator2 := [], SubFields := [] },
        none) ∧
    (MakeField tag data).1.IsControlField = true := by
  simp [MakeField, Field.IsControlField, hc]

/-- C7 witness: tag "001" with raw value "123456" decodes to the field
with that tag and value and no subfields. -/
theorem MakeField_control_field_witness :
    MakeField (ascii ("001")) (ascii ("123456")) =
      ({ Tag := ascii ("001"), Value := ascii ("123456"), Indicator1 := [],
         Indicator2 := [], SubFields := [] }, none) ∧
    (MakeField (ascii ("001")) (ascii ("123456"))).1.IsControlField = true :=
  MakeField_control_field (ascii ("001")) (ascii ("123456")) (by decide)

/-! ### C9 -/

/-- C9: whenever `readRecord` succeeds, the `Record` it returns to its
caller carries only the leader and the directory — its `Values` sequence
is empty and its `Pos` is zero — while the fully assembled record, with
the decoded values and the 1-based sequence number, is delivered exactly
once to the processor callback. -/
theorem readRecord_returns_partial_record (f f' : MarcFile) (r : Record)
    (pr : List (Record × Nat)) (h : readRecord f = (MOutcome.ok r, f', pr)) :
    r.Values = [] ∧ r.Pos = 0 ∧
    ∃ vs, pr = [({ Leader := r.Leader, Directory := r.Directory, Values := vs,
                   Pos := f'.records }, f'.records)] := by
  rw [readRecord] at h
  rcases hL : readLeader f with ⟨o1, f1⟩
  rw [hL] at h
  cases o1 with
  | err e => simp at h
  | panicked m => simp at h
  | ok leader =>
    simp only at h
    rcases hD : readDirectory { f1 with records := f1.records + 1 }
        (bufioFill { f1 with records := f1.records + 1 }) with ⟨o2, f3⟩
    rw [hD] at h
    cases o2 with
    | err e => simp at h
    | panicked m => simp at h
    | ok directory =>
      simp only at h
      rcases hV : readValues f3 directory with ⟨o3, f4⟩
      rw [hV] at h
      cases o3 with
      | panicked m => simp at h
      | ok values =>
        simp only [Prod.mk.injEq, MOutcome.ok.injEq] at h
        obtain ⟨hr, hf, hpr⟩ := h
        subst hr hf hpr
        exact ⟨rfl, rfl, values, rfl⟩

/-- C9 witness: on `sampleStream` (leader, one-entry directory, control
field "001" = "123456", field separator, record terminator) the caller
gets leader and directory only, and the processor gets the full record
with sequence number 1. -/
theorem readRecord_returns_partial_record_witness :
    sampleReturned.Values = [] ∧ sampleReturned.Pos = 0 ∧
    ∃ vs, ([(sampleFull, 1)] : List (Record × Nat)) =
      [({ Leader := sampleReturned.Leader, Directory := sampleReturned.Directory,
          Values := vs, Pos := 1 }, 1)] :=
  readRecord_returns_partial_record
    { data := sampleStream, pos := 0, records := 0 }
    { data := sampleStream, pos := 45, records := 1 }
    sampleReturned [(sampleFull, 1)] (by decide)

/-! ### C10 -/

theorem valueForLoop_eq_find (tag : List Nat) (l : List Value) :
    valueForLoop tag l =
      match l.find? (fun v => v.Tag == tag) with
      | none => (false, { Tag := [], RawValue := [], SubFieldValues := [] })
      | some v => (true, v) := by
  induction l with
  | nil => rfl
  | cons v rest ih =>
    cases hv : (v.Tag == tag) with
    | true => simp [valueForLoop, hv, List.find?_cons]
    | false => simp [valueForLoop, hv, List.find?_cons, ih]

theorem subValueLoop_eq_find (sub : List Nat) (l : List SubFieldValue) :
    subValueLoop sub l =
      match l.find? (fun s => s.SubField == sub) with
      | none => []
      | some s => s.Value := by
  induction l with
  | nil => rfl
  | cons s rest ih =>
    cases hs : (s.SubField == sub) with
    | true => simp [subValueLoop, hs, List.find?_cons]
    | false => simp [subValueLoop, hs, List.find?_cons, ih]

/-- C10: `SubValueFor` returns the value of the first subfield with the
given code inside the first field bearing the given tag, and the empty
string — never an error — when no field with that tag exists or that
first field has no subfield with that code. -/
theorem SubValueFor_first_match (r : Record) (tag sub : List Nat) :
    SubValueFor r tag sub =
      match r.Values.find? (fun v => v.Tag == tag) with
      | none => []
      | some v =>
        match v.SubFieldValues.find? (fun s => s.SubField == sub) with
        | none => []
        | some s => s.Value := by
  rw [SubValueFor, ValueFor]
  rw [valueForLoop_eq_find]
  cases hf : r.Values.find? (fun v => v.Tag == tag) with
  | none => simp
  | some v => simp [subValueLoop_eq_find]

end Marcli
